import Mathlib

/-!
Shallow embedding of the PvP 1v1 matchmaking widget (players, queue,
scoring, match selection, result application, in-flight screen matches)
and of the single-elimination tournament bracket page (round generation,
winner collection, round advancement), together with theorems checking
the specification claims against these definitions.

Timestamps are modelled as integers (milliseconds).  Calls to the
runtime random number generator are modelled as explicit rational
parameters in `[0, 1)`: an index draw `Math.floor(Math.random() * n)`
becomes `jsFloorIdx r n` for a draw `r`, and the per-candidate score
noise `Math.random() * 6` becomes `r * 6`.  The Fisher-Yates shuffle of
the bracket page is modelled as an arbitrary permutation parameter.
-/

inductive Role where
  | TANK
  | HEALER
  | DPS
deriving DecidableEq, Repr

inductive DpsType where
  | MELEE
  | RANGED
deriving DecidableEq, Repr

inductive Level where
  | BAJO
  | MEDIO
  | ALTO
deriving DecidableEq, Repr

inductive Mode where
  | RANDOM
  | SMART
deriving DecidableEq, Repr

structure Player where
  id : String
  nick : String
  role : Role
  dpsType : Option DpsType
  weapon1 : String
  weapon2 : String
  level : Level
  active : Bool
  wins : Nat
  losses : Nat
  lastOpponents : List String
  lastPlayedAt : Option Int
deriving DecidableEq, Repr

structure Match where
  aId : String
  bId : String
  createdAt : Int
deriving DecidableEq, Repr

structure MatchResult where
  m : Match
  winnerId : String
  loserId : String
  finishedAt : Int
deriving DecidableEq, Repr

def clampHistory (arr : List String) (n : Nat) : List String := arr.take n

def recentlyPlayed (p : Player) (oppId : String) (recentCount : Nat) : Bool :=
  (p.lastOpponents.take recentCount).contains oppId

def roleMixScore (a b : Player) : Nat :=
  if a.role != b.role then 6 else 2

def dpsVarietyScore (a b : Player) : Nat :=
  if a.role != Role.DPS || b.role != Role.DPS then 0
  else
    match a.dpsType, b.dpsType with
    | some ta, some tb => if ta != tb then 3 else 1
    | _, _ => 1

def weaponSet (p : Player) : Finset String :=
  ([p.weapon1, p.weapon2].filter (fun w => w != "")).toFinset

def weaponVarietyScore (a b : Player) : Nat :=
  if a.role != Role.DPS || b.role != Role.DPS then 0
  else
    let diff := ((weaponSet a) \ (weaponSet b)).card + ((weaponSet b) \ (weaponSet a)).card
    if diff ≥ 3 then 3 else if diff = 2 then 2 else if diff = 1 then 1 else 0

def recentlyActive (p : Player) (now : Int) : Bool :=
  match p.lastPlayedAt with
  | some t => t != 0 && now - t < 60 * 1000
  | none => false

def recencyPenalty (a c : Player) (now : Int) : Nat :=
  (if recentlyActive a now then 4 else 0) + (if recentlyActive c now then 4 else 0)

def recentPenaltyScore (avoidRecent : Bool) (recentOppCount : Nat) (a c : Player) : Nat :=
  if avoidRecent && recentlyPlayed a c.id recentOppCount then 35 else 0

def smartScore (avoidRecent : Bool) (recentOppCount : Nat) (now : Int) (a c : Player) (r : ℚ) : ℚ :=
  (roleMixScore a c : ℚ) * 14 + (dpsVarietyScore a c : ℚ) * 8 + (weaponVarietyScore a c : ℚ) * 6
    + r * 6 - (recentPenaltyScore avoidRecent recentOppCount a c : ℚ)
    - (recencyPenalty a c now : ℚ)

def smartLoop (avoidRecent : Bool) (recentOppCount : Nat) (now : Int) (a : Player)
    (randS : Nat → ℚ) : List Player → Nat → Player → ℚ → Player × ℚ
  | [], _, best, bestScore => (best, bestScore)
  | c :: rest, i, best, bestScore =>
    let s := smartScore avoidRecent recentOppCount now a c (randS i)
    if bestScore < s then smartLoop avoidRecent recentOppCount now a randS rest (i + 1) c s
    else smartLoop avoidRecent recentOppCount now a randS rest (i + 1) best bestScore

structure PickOpts where
  mode : Mode
  randomA : Bool
  randomATopN : Nat
  avoidRecent : Bool
  recentOppCount : Nat
deriving DecidableEq, Repr

def dummyPlayer : Player :=
  { id := "", nick := "", role := Role.TANK, dpsType := none, weapon1 := "", weapon2 := "",
    level := Level.MEDIO, active := true, wins := 0, losses := 0, lastOpponents := [],
    lastPlayedAt := none }

def jsFloorIdx (r : ℚ) (n : Nat) : Nat := (⌊r * (n : ℚ)⌋).toNat

def activeQueue (queue : List String) (byId : String → Option Player) : List Player :=
  (queue.filterMap byId).filter (fun p => p.active)

def sideA (aq : List Player) (o : PickOpts) (randA : ℚ) : Player :=
  let topN := max 2 (min aq.length o.randomATopN)
  if o.randomA then aq.getD (jsFloorIdx randA topN) dummyPlayer else aq.getD 0 dummyPlayer

def smartCands (queue : List String) (byId : String → Option Player) (o : PickOpts)
    (randA : ℚ) : List Player :=
  let aq := activeQueue queue byId
  aq.filter (fun p => p.id != (sideA aq o randA).id)

def rndFinalPool (queue : List String) (byId : String → Option Player) (o : PickOpts)
    (randA : ℚ) : List Player :=
  let a := sideA (activeQueue queue byId) o randA
  let cands := smartCands queue byId o randA
  let pool :=
    if o.avoidRecent then cands.filter (fun c => !(recentlyPlayed a c.id o.recentOppCount))
    else cands
  if pool.length != 0 then pool else cands

def smartBest (queue : List String) (byId : String → Option Player) (o : PickOpts)
    (randA : ℚ) (randS : Nat → ℚ) (now : Int) : Player :=
  let a := sideA (activeQueue queue byId) o randA
  let cands := smartCands queue byId o randA
  (smartLoop o.avoidRecent o.recentOppCount now a randS cands 0
    (cands.getD 0 dummyPlayer) (-999999)).1

def pickMatchFromQueue (queue : List String) (byId : String → Option Player) (o : PickOpts)
    (randA randB : ℚ) (randS : Nat → ℚ) (now : Int) : Option Match :=
  let aq := activeQueue queue byId
  if aq.length < 2 then none
  else
    let a := sideA aq o randA
    let candidates := smartCands queue byId o randA
    if candidates.length = 0 then none
    else
      match o.mode with
      | Mode.RANDOM =>
        let finalPool := rndFinalPool queue byId o randA
        some { aId := a.id,
               bId := (finalPool.getD (jsFloorIdx randB finalPool.length) dummyPlayer).id,
               createdAt := now }
      | Mode.SMART =>
        some { aId := a.id, bId := (smartBest queue byId o randA randS now).id,
               createdAt := now }

structure St where
  players : List Player
  results : List MatchResult
  queue : List String
  screenMatches : List Match
  currentMatch : Option Match
deriving DecidableEq, Repr

def buildPlayersById (ps : List Player) : String → Option Player :=
  fun id => ps.reverse.find? (fun p => p.id == id)

def playerAfterResult (winnerId loserId : String) (now : Int) (p : Player) : Player :=
  if p.id != winnerId && p.id != loserId then p
  else
    let opponentId := if p.id == winnerId then loserId else winnerId
    { p with
      wins := if p.id == winnerId then p.wins + 1 else p.wins,
      losses := if p.id == loserId then p.losses + 1 else p.losses,
      lastOpponents := clampHistory (opponentId :: p.lastOpponents) 10,
      lastPlayedAt := some now }

def matchResolved (results : List MatchResult) (createdAt : Int) : Bool :=
  results.any (fun r => r.m.createdAt == createdAt)

def applyResultForMatch (st : St) (mt : Match) (winnerId loserId : String) (now : Int) : St :=
  let base :=
    if matchResolved st.results mt.createdAt then st
    else
      { st with
        players := st.players.map (playerAfterResult winnerId loserId now),
        results := { m := mt, winnerId := winnerId, loserId := loserId,
                     finishedAt := now } :: st.results,
        queue := (st.queue.filter (fun id => id != winnerId && id != loserId))
          ++ [winnerId, loserId],
        screenMatches := st.screenMatches.filter (fun sm => sm.createdAt != mt.createdAt) }
  match st.currentMatch with
  | some cm => if cm.createdAt == mt.createdAt then { base with currentMatch := none } else base
  | none => base

def isBusy (st : St) (id : String) : Bool :=
  st.screenMatches.any (fun sm =>
    !(matchResolved st.results sm.createdAt) && (sm.aId == id || sm.bId == id))

def availableQueue (st : St) : List String :=
  st.queue.filter (fun id => !(isBusy st id))

def takeLast (l : List Match) (n : Nat) : List Match := l.drop (l.length - n)

def nextMatch (st : St) (o : PickOpts) (randA randB : ℚ) (randS : Nat → ℚ) (now : Int) : St :=
  match pickMatchFromQueue (availableQueue st) (buildPlayersById st.players) o
      randA randB randS now with
  | none => { st with currentMatch := none }
  | some m =>
    { st with currentMatch := some m, screenMatches := takeLast (st.screenMatches ++ [m]) 4 }

def toggleActive (st : St) (id : String) : St :=
  let cm :=
    match st.currentMatch with
    | some m => if m.aId == id || m.bId == id then none else some m
    | none => none
  { st with
    currentMatch := cm,
    players := st.players.map (fun p => if p.id == id then { p with active := !p.active } else p) }

def removePlayer (st : St) (id : String) : St :=
  let cm :=
    match st.currentMatch with
    | some m => if m.aId == id || m.bId == id then none else some m
    | none => none
  { st with
    currentMatch := cm,
    players := st.players.filter (fun p => p.id != id),
    queue := st.queue.filter (fun q => q != id) }

structure BracketMatch where
  id : String
  round : Nat
  a : String
  b : String
  winner : String
  canceled : Bool
deriving DecidableEq, Repr

def mkMatchId (r idx : Nat) : String := "r" ++ toString r ++ "-" ++ toString idx

def pairFromStack (r : Nat) (allowBye : Bool) : Nat → List String → Option (List BracketMatch)
  | _, [] => some []
  | idx, [x] =>
    if allowBye then
      some [{ id := mkMatchId r idx, round := r, a := x, b := "", winner := "A",
              canceled := false }]
    else none
  | idx, x :: y :: rest =>
    (pairFromStack r allowBye (idx + 1) rest).map
      (fun ms => { id := mkMatchId r idx, round := r, a := x, b := y, winner := "",
                   canceled := false } :: ms)

def generateRound1 (ids : List String) (allowBye : Bool)
    (shuffle : List String → List String) : Option (List BracketMatch) :=
  if ids.length < 2 then none else pairFromStack 1 allowBye 0 (shuffle ids).reverse

def winnerOfMatch (m : BracketMatch) : Option String :=
  if m.canceled then none
  else if m.winner == "A" then some m.a
  else if m.winner == "B" then some m.b
  else none

def winnersOfMatches (ms : List BracketMatch) : List String :=
  (ms.filterMap winnerOfMatch).filter (fun s => s != "")

def winnersOfRound (bracket : List BracketMatch) (r : Nat) : List String :=
  winnersOfMatches (bracket.filter (fun m => m.round == r))

def canAdvance (bracket : List BracketMatch) (r : Nat) : Bool :=
  let current := bracket.filter (fun m => m.round == r)
  !current.isEmpty && current.all (fun m => m.canceled || m.winner != "")

inductive AdvanceOutcome where
  | notReady : AdvanceOutcome
  | finished : AdvanceOutcome
  | oddNoBye : AdvanceOutcome
  | nextRound : List BracketMatch → AdvanceOutcome
deriving DecidableEq, Repr

def buildNextRound (bracket : List BracketMatch) (r : Nat) (allowBye : Bool)
    (shuffle : List String → List String) : AdvanceOutcome :=
  if !(canAdvance bracket r) then AdvanceOutcome.notReady
  else
    let winners := shuffle (winnersOfRound bracket r)
    if winners.length ≤ 1 then AdvanceOutcome.finished
    else
      match pairFromStack (r + 1) allowBye 0 winners.reverse with
      | none => AdvanceOutcome.oddNoBye
      | some ms => AdvanceOutcome.nextRound ms

def decideMatches (d : BracketMatch → String) (ms : List BracketMatch) : List BracketMatch :=
  ms.map (fun m => if m.b == "" then m else { m with winner := d m })

def roundMatchesBye (r : Nat) (pool : List String) : List BracketMatch :=
  (pairFromStack r true 0 pool.reverse).getD []

def poolSeq (ds : Nat → BracketMatch → String) (shuffles : Nat → List String → List String)
    (participants : List String) : Nat → List String
  | 0 => participants
  | k + 1 =>
    winnersOfMatches (decideMatches (ds k)
      (roundMatchesBye (k + 1) (shuffles k (poolSeq ds shuffles participants k))))

lemma applyResult_fields (st : St) (mt : Match) (w l : String) (t : Int)
    (h0 : matchResolved st.results mt.createdAt = false) :
    (applyResultForMatch st mt w l t).players = st.players.map (playerAfterResult w l t)
    ∧ (applyResultForMatch st mt w l t).results
      = { m := mt, winnerId := w, loserId := l, finishedAt := t } :: st.results
    ∧ (applyResultForMatch st mt w l t).queue
      = (st.queue.filter (fun id => id != w && id != l)) ++ [w, l]
    ∧ (applyResultForMatch st mt w l t).screenMatches
      = st.screenMatches.filter (fun sm => sm.createdAt != mt.createdAt) := by
  unfold applyResultForMatch
  rw [h0]
  cases hcm : st.currentMatch with
  | none => simp
  | some cm =>
    by_cases h : (cm.createdAt == mt.createdAt) = true
    · simp [h]
    · simp [h]

lemma applyResult_currentMatch (st : St) (mt : Match) (w l : String) (t : Int) :
    (applyResultForMatch st mt w l t).currentMatch
      = match st.currentMatch with
        | some cm => if cm.createdAt == mt.createdAt then none else some cm
        | none => none := by
  unfold applyResultForMatch
  by_cases hr : matchResolved st.results mt.createdAt = true
  · cases hcm : st.currentMatch with
    | none => simp [hr, hcm]
    | some cm => by_cases he : (cm.createdAt == mt.createdAt) = true <;> simp [hr, he, hcm]
  · cases hcm : st.currentMatch with
    | none => simp [hr, hcm]
    | some cm => by_cases he : (cm.createdAt == mt.createdAt) = true <;> simp [hr, he, hcm]

lemma applyResult_currentMatch_ne (st : St) (mt : Match) (w l : String) (t : Int) :
    ∀ cm, (applyResultForMatch st mt w l t).currentMatch = some cm →
      (cm.createdAt == mt.createdAt) = false := by
  intro cm h
  rw [applyResult_currentMatch] at h
  cases hcm : st.currentMatch with
  | none => rw [hcm] at h; cases h
  | some cm0 =>
    rw [hcm] at h
    by_cases he : (cm0.createdAt == mt.createdAt) = true
    · simp [he] at h
    · simp [he] at h
      subst h
      simpa using he

lemma applyResult_resolved (st : St) (mt : Match) (w l : String) (t : Int)
    (h : matchResolved st.results mt.createdAt = true)
    (hcm : ∀ cm, st.currentMatch = some cm → (cm.createdAt == mt.createdAt) = false) :
    applyResultForMatch st mt w l t = st := by
  unfold applyResultForMatch
  rw [h]
  cases hc : st.currentMatch with
  | none => simp
  | some cm => simp [hcm cm hc]

/-- C2: resolving the same match (identified by its creation timestamp) a second
time, with the same or a different declared winner, is a no-op: the state after
the duplicate call equals the state after the first call, the results history
holds exactly one entry for that creation timestamp, and the winner's win counter
and the loser's loss counter were each incremented exactly once by the first call. -/
theorem c2_idempotent_resolution (st : St) (mt : Match) (w l w2 l2 : String) (t1 t2 : Int)
    (h0 : matchResolved st.results mt.createdAt = false) (hwl : w ≠ l) :
    applyResultForMatch (applyResultForMatch st mt w l t1) mt w2 l2 t2
      = applyResultForMatch st mt w l t1
    ∧ ((applyResultForMatch st mt w l t1).results.filter
        (fun r => r.m.createdAt == mt.createdAt)).length = 1
    ∧ (applyResultForMatch st mt w l t1).players = st.players.map (playerAfterResult w l t1)
    ∧ (∀ p : Player, p.id = w → (playerAfterResult w l t1 p).wins = p.wins + 1
        ∧ (playerAfterResult w l t1 p).losses = p.losses)
    ∧ (∀ p : Player, p.id = l → (playerAfterResult w l t1 p).losses = p.losses + 1
        ∧ (playerAfterResult w l t1 p).wins = p.wins) := by
  obtain ⟨hp, hr, hq, hs⟩ := applyResult_fields st mt w l t1 h0
  have hres1 : matchResolved (applyResultForMatch st mt w l t1).results mt.createdAt = true := by
    rw [hr]
    simp [matchResolved]
  have hfilter0 : st.results.filter (fun r => r.m.createdAt == mt.createdAt) = [] := by
    simp only [matchResolved, List.any_eq_true, not_exists] at h0
    rw [List.filter_eq_nil_iff]
    intro r hrm
    simp only [List.any_eq_false] at h0
    exact h0 r hrm
  refine ⟨?_, ?_, hp, ?_, ?_⟩
  · exact applyResult_resolved _ mt w2 l2 t2 hres1 (applyResult_currentMatch_ne st mt w l t1)
  · rw [hr]
    simp [List.filter_cons, hfilter0]
  · intro p hpw
    have h1 : (p.id != w) = false := by simp [hpw]
    have h2 : (p.id == w) = true := by simp [hpw]
    have h3 : (p.id == l) = false := by simp [hpw, hwl]
    simp [playerAfterResult, h1, h2, h3]
  · intro p hpl
    have h1 : (p.id != w && p.id != l) = false := by simp [hpl]
    have h2 : (p.id == w) = false := by
      simp [hpl]
      exact fun h => hwl h.symm
    have h3 : (p.id == l) = true := by simp [hpl]
    simp [playerAfterResult, h1, h2, h3]

/-- C2 witness: a concrete two-player state resolved twice. -/
theorem c2_idempotent_resolution_witness :
    (matchResolved ([] : List MatchResult) 5 = false ∧ "w" ≠ "l")
    ∧ (applyResultForMatch (applyResultForMatch
        { players := [{ dummyPlayer with id := "w" }, { dummyPlayer with id := "l" }],
          results := [], queue := ["w", "l"], screenMatches := [], currentMatch := none }
        { aId := "w", bId := "l", createdAt := 5 } "w" "l" 6)
        { aId := "w", bId := "l", createdAt := 5 } "l" "w" 7
      = applyResultForMatch
        { players := [{ dummyPlayer with id := "w" }, { dummyPlayer with id := "l" }],
          results := [], queue := ["w", "l"], screenMatches := [], currentMatch := none }
        { aId := "w", bId := "l", createdAt := 5 } "w" "l" 6) := by
  constructor
  · exact ⟨by decide, by decide⟩
  · exact (c2_idempotent_resolution
      { players := [{ dummyPlayer with id := "w" }, { dummyPlayer with id := "l" }],
        results := [], queue := ["w", "l"], screenMatches := [], currentMatch := none }
      { aId := "w", bId := "l", createdAt := 5 } "w" "l" "l" "w" 6 7
      (by decide) (by decide)).1

/-- C3: applying a result moves winner then loser to the back of the queue:
the new queue is the old queue with both removed, then the winner appended,
then the loser, and the relative order of all other entries is unchanged. -/
theorem c3_requeue_winner_loser (st : St) (mt : Match) (w l : String) (now : Int)
    (h0 : matchResolved st.results mt.createdAt = false) :
    (applyResultForMatch st mt w l now).queue
      = (st.queue.filter (fun id => id != w && id != l)) ++ [w, l]
    ∧ (applyResultForMatch st mt w l now).queue.filter (fun id => id != w && id != l)
      = st.queue.filter (fun id => id != w && id != l) := by
  obtain ⟨hp, hr, hq, hs⟩ := applyResult_fields st mt w l now h0
  refine ⟨hq, ?_⟩
  rw [hq]
  rw [List.filter_append, List.filter_filter]
  simp [Bool.and_self]

/-- C3 witness: a concrete queue with a bystander keeping its position. -/
theorem c3_requeue_winner_loser_witness :
    matchResolved ([] : List MatchResult) 5 = false
    ∧ (applyResultForMatch
        { players := [], results := [], queue := ["x", "w", "y", "l"], screenMatches := [],
          currentMatch := none }
        { aId := "w", bId := "l", createdAt := 5 } "w" "l" 6).queue
      = ["x", "y", "w", "l"] := by
  refine ⟨by decide, ?_⟩
  have h := (c3_requeue_winner_loser
    { players := [], results := [], queue := ["x", "w", "y", "l"], screenMatches := [],
      currentMatch := none }
    { aId := "w", bId := "l", createdAt := 5 } "w" "l" 6 (by decide)).1
  rw [h]
  decide

def c9ExSt : St :=
  { players := [{ dummyPlayer with id := "x" }, { dummyPlayer with id := "y" }],
    results := [], queue := ["x", "y"],
    screenMatches := [{ aId := "x", bId := "y", createdAt := 100 }],
    currentMatch := some { aId := "x", bId := "y", createdAt := 100 } }

/-- C9 counterexample: removing (or deactivating) player `x`, a participant of
the unresolved in-flight screen match, leaves that screen match in the in-flight
set still referencing `x`, so the claim that no in-flight match references the
removed or deactivated player after the operation is false. -/
theorem c9_counterexample_screen_match_survives :
    ((removePlayer c9ExSt "x").players.all (fun p => p.id != "x")) = true
    ∧ ((removePlayer c9ExSt "x").screenMatches.any (fun m =>
        (m.aId == "x" || m.bId == "x")
          && !(matchResolved (removePlayer c9ExSt "x").results m.createdAt))) = true
    ∧ ((toggleActive c9ExSt "x").players.any (fun p => p.id == "x" && !p.active)) = true
    ∧ ((toggleActive c9ExSt "x").screenMatches.any (fun m =>
        (m.aId == "x" || m.bId == "x")
          && !(matchResolved (toggleActive c9ExSt "x").results m.createdAt))) = true := by
  decide

/-- C9 amended: deactivating or removing a participant of the single current
match clears the current match; the in-flight screen match set is left untouched
by both operations (and may therefore still reference the player). -/
theorem c9_amended_current_match_cleared (st : St) (id : String) (m : Match)
    (hcm : st.currentMatch = some m) (hpart : m.aId = id ∨ m.bId = id) :
    (toggleActive st id).currentMatch = none
    ∧ (removePlayer st id).currentMatch = none
    ∧ (toggleActive st id).screenMatches = st.screenMatches
    ∧ (removePlayer st id).screenMatches = st.screenMatches := by
  have hb : (m.aId == id || m.bId == id) = true := by
    rcases hpart with h | h <;> simp [h]
  unfold toggleActive removePlayer
  rw [hcm]
  simp [hb]

/-- C9 amended witness: a concrete state where removing and deactivating the
participant clears the current match. -/
theorem c9_amended_current_match_cleared_witness :
    c9ExSt.currentMatch = some { aId := "x", bId := "y", createdAt := 100 }
    ∧ ((toggleActive c9ExSt "x").currentMatch = none
       ∧ (removePlayer c9ExSt "x").currentMatch = none
       ∧ (toggleActive c9ExSt "x").screenMatches = c9ExSt.screenMatches
       ∧ (removePlayer c9ExSt "x").screenMatches = c9ExSt.screenMatches) :=
  ⟨rfl, c9_amended_current_match_cleared c9ExSt "x"
    { aId := "x", bId := "y", createdAt := 100 } rfl (Or.inl rfl)⟩

lemma pick_none_of_lt_two (queue : List String) (byId : String → Option Player) (o : PickOpts)
    (randA randB : ℚ) (randS : Nat → ℚ) (now : Int)
    (h : (activeQueue queue byId).length < 2) :
    pickMatchFromQueue queue byId o randA randB randS now = none := by
  unfold pickMatchFromQueue
  simp [h]

/-- C6: when fewer than two of the queued players are active, match selection
returns none (an expected empty result, not an error); drawing leaves players,
results, queue and the in-flight screen matches unchanged, merely storing the
empty selection in the current-match slot, so a state with no current match is
left completely unchanged. -/
theorem c6_too_few_eligible (st : St) (o : PickOpts) (randA randB : ℚ) (randS : Nat → ℚ)
    (now : Int)
    (h : (activeQueue st.queue (buildPlayersById st.players)).length < 2) :
    pickMatchFromQueue (availableQueue st) (buildPlayersById st.players) o randA randB randS now
      = none
    ∧ nextMatch st o randA randB randS now = { st with currentMatch := none }
    ∧ (st.currentMatch = none → nextMatch st o randA randB randS now = st) := by
  have hsub : List.Sublist (availableQueue st) st.queue := List.filter_sublist _
  have hle : (activeQueue (availableQueue st) (buildPlayersById st.players)).length
      ≤ (activeQueue st.queue (buildPlayersById st.players)).length := by
    unfold activeQueue
    exact ((hsub.filterMap _).filter _).length_le
  have hlt : (activeQueue (availableQueue st) (buildPlayersById st.players)).length < 2 :=
    lt_of_le_of_lt hle h
  have hnone := pick_none_of_lt_two (availableQueue st) (buildPlayersById st.players)
    o randA randB randS now hlt
  refine ⟨hnone, ?_, ?_⟩
  · unfold nextMatch
    rw [hnone]
  · intro hc
    unfold nextMatch
    rw [hnone]
    cases st with
    | mk players results queue screenMatches currentMatch =>
      simp at hc
      simp [hc]

def c6ExSt : St :=
  { players := [{ dummyPlayer with id := "x" }], results := [], queue := ["x"],
    screenMatches := [], currentMatch := none }

def exOpts : PickOpts :=
  { mode := Mode.SMART, randomA := false, randomATopN := 6, avoidRecent := true,
    recentOppCount := 3 }

/-- C6 witness: a single queued active player yields the empty selection and an
unchanged state. -/
theorem c6_too_few_eligible_witness :
    (activeQueue c6ExSt.queue (buildPlayersById c6ExSt.players)).length < 2
    ∧ pickMatchFromQueue (availableQueue c6ExSt) (buildPlayersById c6ExSt.players) exOpts
        (1/2) (1/2) (fun _ => 1/2) 0 = none
    ∧ nextMatch c6ExSt exOpts (1/2) (1/2) (fun _ => 1/2) 0 = c6ExSt := by
  refine ⟨by decide, ?_, ?_⟩
  · exact (c6_too_few_eligible c6ExSt exOpts (1/2) (1/2) (fun _ => 1/2) 0 (by decide)).1
  · exact (c6_too_few_eligible c6ExSt exOpts (1/2) (1/2) (fun _ => 1/2) 0 (by decide)).2.2 rfl

lemma applyResult_screen_length_le (st : St) (mt : Match) (w l : String) (t : Int) :
    (applyResultForMatch st mt w l t).screenMatches.length ≤ st.screenMatches.length := by
  unfold applyResultForMatch
  by_cases hr : matchResolved st.results mt.createdAt = true
  · cases hcm : st.currentMatch with
    | none => simp [hr]
    | some cm =>
      by_cases he : (cm.createdAt == mt.createdAt) = true <;> simp [hr, he]
  · cases hcm : st.currentMatch with
    | none => simp [hr]; exact List.length_filter_le _ _
    | some cm =>
      by_cases he : (cm.createdAt == mt.createdAt) = true <;> simp [hr, he] <;>
        exact List.length_filter_le _ _

/-- C10: the in-flight screen-match set never grows beyond 4: drawing keeps at
most 4 entries, resolving never adds entries, drawing produces no result; and
drawing a new match while 4 are in flight silently drops the oldest entry,
keeping the remaining ones in order followed by the new match. -/
theorem c10_screen_cap (st : St) (o : PickOpts) (randA randB : ℚ) (randS : Nat → ℚ)
    (now : Int) (h4 : st.screenMatches.length ≤ 4) :
    (nextMatch st o randA randB randS now).screenMatches.length ≤ 4
    ∧ (∀ mt w l t, (applyResultForMatch st mt w l t).screenMatches.length ≤ 4)
    ∧ (nextMatch st o randA randB randS now).results = st.results
    ∧ (st.screenMatches.length = 4 →
        ∀ m, (nextMatch st o randA randB randS now).currentMatch = some m →
          (nextMatch st o randA randB randS now).screenMatches
            = st.screenMatches.drop 1 ++ [m]) := by
  refine ⟨?_, ?_, ?_, ?_⟩
  · unfold nextMatch
    cases hp : pickMatchFromQueue (availableQueue st) (buildPlayersById st.players) o
        randA randB randS now with
    | none => simpa using h4
    | some m0 =>
      simp [takeLast]
      omega
  · intro mt w l t
    exact le_trans (applyResult_screen_length_le st mt w l t) h4
  · unfold nextMatch
    cases hp : pickMatchFromQueue (availableQueue st) (buildPlayersById st.players) o
        randA randB randS now with
    | none => rfl
    | some m0 => rfl
  · intro hlen m hm
    unfold nextMatch at hm ⊢
    cases hp : pickMatchFromQueue (availableQueue st) (buildPlayersById st.players) o
        randA randB randS now with
    | none => rw [hp] at hm; simp at hm
    | some m0 =>
      rw [hp] at hm
      simp at hm
      subst hm
      simp only [takeLast, List.length_append, List.length_singleton, hlen]
      rw [List.drop_append_eq_append_drop]
      simp [hlen]

def c10ExSt : St :=
  { players := [{ dummyPlayer with id := "x" }], results := [], queue := ["x"],
    screenMatches := [{ aId := "p", bId := "q", createdAt := 1 },
      { aId := "r", bId := "s", createdAt := 2 },
      { aId := "t", bId := "u", createdAt := 3 },
      { aId := "v", bId := "w", createdAt := 4 }],
    currentMatch := none }

/-- C10 witness: a concrete state holding four screen matches. -/
theorem c10_screen_cap_witness :
    c10ExSt.screenMatches.length ≤ 4
    ∧ (nextMatch c10ExSt exOpts (1/2) (1/2) (fun _ => 1/2) 0).screenMatches.length ≤ 4 :=
  ⟨by decide,
    (c10_screen_cap c10ExSt exOpts (1/2) (1/2) (fun _ => 1/2) 0 (by decide)).1⟩

lemma roleMixScore_ge_two (a c : Player) : 2 ≤ roleMixScore a c := by
  unfold roleMixScore
  split <;> omega

lemma recentPenaltyScore_le (av : Bool) (cnt : Nat) (a c : Player) :
    recentPenaltyScore av cnt a c ≤ 35 := by
  unfold recentPenaltyScore
  split <;> omega

lemma recencyPenalty_le (a c : Player) (now : Int) : recencyPenalty a c now ≤ 8 := by
  unfold recencyPenalty
  split <;> split <;> omega

lemma smartScore_lb (av : Bool) (cnt : Nat) (now : Int) (a c : Player) (r : ℚ)
    (hr : 0 ≤ r) : (-999999 : ℚ) < smartScore av cnt now a c r := by
  unfold smartScore
  have h1 : (2 : ℚ) ≤ (roleMixScore a c : ℚ) := by exact_mod_cast roleMixScore_ge_two a c
  have h2 : ((recentPenaltyScore av cnt a c : ℚ)) ≤ 35 := by
    exact_mod_cast recentPenaltyScore_le av cnt a c
  have h3 : ((recencyPenalty a c now : ℚ)) ≤ 8 := by exact_mod_cast recencyPenalty_le a c now
  have h4 : (0 : ℚ) ≤ (dpsVarietyScore a c : ℚ) := Nat.cast_nonneg _
  have h5 : (0 : ℚ) ≤ (weaponVarietyScore a c : ℚ) := Nat.cast_nonneg _
  have h6 : (0 : ℚ) ≤ r * 6 := mul_nonneg hr (by norm_num)
  linarith

lemma smartLoop_cons_pos (av : Bool) (cnt : Nat) (now : Int) (a : Player) (randS : Nat → ℚ)
    (c : Player) (rest : List Player) (i : Nat) (best : Player) (bs : ℚ)
    (h : bs < smartScore av cnt now a c (randS i)) :
    smartLoop av cnt now a randS (c :: rest) i best bs
      = smartLoop av cnt now a randS rest (i + 1) c (smartScore av cnt now a c (randS i)) := by
  simp [smartLoop, h]

lemma smartLoop_cons_neg (av : Bool) (cnt : Nat) (now : Int) (a : Player) (randS : Nat → ℚ)
    (c : Player) (rest : List Player) (i : Nat) (best : Player) (bs : ℚ)
    (h : ¬ bs < smartScore av cnt now a c (randS i)) :
    smartLoop av cnt now a randS (c :: rest) i best bs
      = smartLoop av cnt now a randS rest (i + 1) best bs := by
  simp [smartLoop, h]

lemma smartLoop_spec (av : Bool) (cnt : Nat) (now : Int) (a : Player) (randS : Nat → ℚ) :
    ∀ (l : List Player) (i : Nat) (best : Player) (bs : ℚ),
      ((smartLoop av cnt now a randS l i best bs).1 = best
        ∧ (smartLoop av cnt now a randS l i best bs).2 = bs
        ∧ ∀ k, k < l.length →
            smartScore av cnt now a (l.getD k dummyPlayer) (randS (i + k)) ≤ bs)
      ∨ (∃ j, j < l.length
          ∧ (smartLoop av cnt now a randS l i best bs).1 = l.getD j dummyPlayer
          ∧ (smartLoop av cnt now a randS l i best bs).2
            = smartScore av cnt now a (l.getD j dummyPlayer) (randS (i + j))
          ∧ bs < (smartLoop av cnt now a randS l i best bs).2
          ∧ (∀ k, k < l.length →
              smartScore av cnt now a (l.getD k dummyPlayer) (randS (i + k))
                ≤ (smartLoop av cnt now a randS l i best bs).2)
          ∧ (∀ k, k < j →
              smartScore av cnt now a (l.getD k dummyPlayer) (randS (i + k))
                < (smartLoop av cnt now a randS l i best bs).2)) := by
  intro l
  induction l with
  | nil =>
    intro i best bs
    left
    refine ⟨rfl, rfl, fun k hk => ?_⟩
    simp at hk
  | cons c rest ih =>
    intro i best bs
    by_cases h : bs < smartScore av cnt now a c (randS i)
    · rw [smartLoop_cons_pos av cnt now a randS c rest i best bs h]
      rcases ih (i + 1) c (smartScore av cnt now a c (randS i)) with
        ⟨ha1, ha2, ha3⟩ | ⟨j, hj, hb1, hb2, hb3, hb4, hb5⟩
      · right
        refine ⟨0, by simp, ?_, ?_, ?_, ?_, ?_⟩
        · rw [ha1]; simp
        · rw [ha2]; simp
        · rw [ha2]; exact h
        · intro k hk
          rw [ha2]
          cases k with
          | zero => simp
          | succ k2 =>
            have hk2 : k2 < rest.length := by simpa using hk
            have harg : i + (k2 + 1) = (i + 1) + k2 := by omega
            rw [List.getD_cons_succ, harg]
            exact ha3 k2 hk2
        · intro k hk
          exact absurd hk (Nat.not_lt_zero k)
      · right
        refine ⟨j + 1, by simpa using hj, ?_, ?_, ?_, ?_, ?_⟩
        · rw [hb1]; simp
        · have harg : i + (j + 1) = (i + 1) + j := by omega
          rw [List.getD_cons_succ, harg]
          exact hb2
        · exact lt_trans h hb3
        · intro k hk
          cases k with
          | zero =>
            rw [List.getD_cons_zero]
            simpa using le_of_lt hb3
          | succ k2 =>
            have hk2 : k2 < rest.length := by simpa using hk
            have harg : i + (k2 + 1) = (i + 1) + k2 := by omega
            rw [List.getD_cons_succ, harg]
            exact hb4 k2 hk2
        · intro k hk
          cases k with
          | zero =>
            rw [List.getD_cons_zero]
            simpa using hb3
          | succ k2 =>
            have hk2 : k2 < j := by omega
            have harg : i + (k2 + 1) = (i + 1) + k2 := by omega
            rw [List.getD_cons_succ, harg]
            exact hb5 k2 hk2
    · rw [smartLoop_cons_neg av cnt now a randS c rest i best bs h]
      rcases ih (i + 1) best bs with
        ⟨ha1, ha2, ha3⟩ | ⟨j, hj, hb1, hb2, hb3, hb4, hb5⟩
      · left
        refine ⟨ha1, ha2, ?_⟩
        intro k hk
        cases k with
        | zero =>
          rw [List.getD_cons_zero]
          simpa using le_of_not_lt h
        | succ k2 =>
          have hk2 : k2 < rest.length := by simpa using hk
          have harg : i + (k2 + 1) = (i + 1) + k2 := by omega
          rw [List.getD_cons_succ, harg]
          exact ha3 k2 hk2
      · right
        refine ⟨j + 1, by simpa using hj, ?_, ?_, hb3, ?_, ?_⟩
        · rw [hb1]; simp
        · have harg : i + (j + 1) = (i + 1) + j := by omega
          rw [List.getD_cons_succ, harg]
          exact hb2
        · intro k hk
          cases k with
          | zero =>
            rw [List.getD_cons_zero]
            exact le_trans (le_of_not_lt h) (le_of_lt hb3)
          | succ k2 =>
            have hk2 : k2 < rest.length := by simpa using hk
            have harg : i + (k2 + 1) = (i + 1) + k2 := by omega
            rw [List.getD_cons_succ, harg]
            exact hb4 k2 hk2
        · intro k hk
          cases k with
          | zero =>
            rw [List.getD_cons_zero]
            exact lt_of_le_of_lt (le_of_not_lt h) hb3
          | succ k2 =>
            have hk2 : k2 < j := by omega
            have harg : i + (k2 + 1) = (i + 1) + k2 := by omega
            rw [List.getD_cons_succ, harg]
            exact hb5 k2 hk2

def candScore (queue : List String) (byId : String → Option Player) (o : PickOpts)
    (randA : ℚ) (randS : Nat → ℚ) (now : Int) (k : Nat) : ℚ :=
  smartScore o.avoidRecent o.recentOppCount now (sideA (activeQueue queue byId) o randA)
    ((smartCands queue byId o randA).getD k dummyPlayer) (randS k)

lemma smartBest_argmax (queue : List String) (byId : String → Option Player) (o : PickOpts)
    (randA : ℚ) (randS : Nat → ℚ) (now : Int)
    (hrS : ∀ i, 0 ≤ randS i)
    (hcand : smartCands queue byId o randA ≠ []) :
    ∃ j, j < (smartCands queue byId o randA).length
      ∧ smartBest queue byId o randA randS now
        = (smartCands queue byId o randA).getD j dummyPlayer
      ∧ (∀ k, k < (smartCands queue byId o randA).length →
          candScore queue byId o randA randS now k ≤ candScore queue byId o randA randS now j)
      ∧ (∀ k, k < j →
          candScore queue byId o randA randS now k < candScore queue byId o randA randS now j) := by
  have hspec := smartLoop_spec o.avoidRecent o.recentOppCount now
    (sideA (activeQueue queue byId) o randA) randS (smartCands queue byId o randA) 0
    ((smartCands queue byId o randA).getD 0 dummyPlayer) (-999999)
  have hlen0 : 0 < (smartCands queue byId o randA).length := List.length_pos.mpr hcand
  rcases hspec with ⟨ha1, ha2, ha3⟩ | ⟨j, hj, hb1, hb2, hb3, hb4, hb5⟩
  · exfalso
    have h0 := ha3 0 hlen0
    have hlb := smartScore_lb o.avoidRecent o.recentOppCount now
      (sideA (activeQueue queue byId) o randA)
      ((smartCands queue byId o randA).getD 0 dummyPlayer) (randS (0 + 0)) (hrS (0 + 0))
    linarith
  · refine ⟨j, hj, ?_, ?_, ?_⟩
    · unfold smartBest
      exact hb1
    · intro k hk
      unfold candScore
      have h1 := hb4 k hk
      rw [Nat.zero_add] at h1
      rw [Nat.zero_add] at hb2
      rw [hb2] at h1
      exact h1
    · intro k hk
      unfold candScore
      have h1 := hb5 k hk
      rw [Nat.zero_add] at h1
      rw [Nat.zero_add] at hb2
      rw [hb2] at h1
      exact h1

lemma pick_smart_eq (queue : List String) (byId : String → Option Player) (o : PickOpts)
    (randA randB : ℚ) (randS : Nat → ℚ) (now : Int)
    (hmode : o.mode = Mode.SMART)
    (hlen : ¬ (activeQueue queue byId).length < 2)
    (hcand : ¬ (smartCands queue byId o randA).length = 0) :
    pickMatchFromQueue queue byId o randA randB randS now
      = some { aId := (sideA (activeQueue queue byId) o randA).id,
               bId := (smartBest queue byId o randA randS now).id, createdAt := now } := by
  unfold pickMatchFromQueue
  simp [hlen, hcand, hmode]

lemma pick_random_eq (queue : List String) (byId : String → Option Player) (o : PickOpts)
    (randA randB : ℚ) (randS : Nat → ℚ) (now : Int)
    (hmode : o.mode = Mode.RANDOM)
    (hlen : ¬ (activeQueue queue byId).length < 2)
    (hcand : ¬ (smartCands queue byId o randA).length = 0) :
    pickMatchFromQueue queue byId o randA randB randS now
      = some { aId := (sideA (activeQueue queue byId) o randA).id,
               bId := ((rndFinalPool queue byId o randA).getD
                 (jsFloorIdx randB (rndFinalPool queue byId o randA).length) dummyPlayer).id,
               createdAt := now } := by
  unfold pickMatchFromQueue
  simp [hlen, hcand, hmode]

/-- C1: under the SMART policy every candidate is scored as
`14 * roleMix + 8 * dpsVariety + 6 * weaponVariety + U(0,6) - recentPenalty -
recencyPenalty` (the uniform `[0,6)` draw appearing as `6 * r` for a fresh
per-candidate draw `r` in `[0,1)`), where roleMix is 6 for differing roles else
2, dpsVariety is 0 unless both are DPS and then 3 for differing styles else 1,
weaponVariety is 0 unless both are DPS and otherwise the size of the symmetric
difference of the weapon sets mapped through `{>=3 -> 3, 2 -> 2, 1 -> 1, 0 -> 0}`,
recentPenalty is 35 exactly when anti-repeat is on and the candidate is within
the lookback window of side A's recent opponents, and recencyPenalty adds 4 for
each side that played within the last 60 seconds; the candidate with the
strictly highest score is returned as side B, exact ties broken by first-seen
order in the candidate list. -/
theorem c1_smart_scoring_and_selection (queue : List String) (byId : String → Option Player)
    (o : PickOpts) (randA randB : ℚ) (randS : Nat → ℚ) (now : Int)
    (hmode : o.mode = Mode.SMART)
    (hrS : ∀ i, 0 ≤ randS i ∧ randS i < 1)
    (hlen : 2 ≤ (activeQueue queue byId).length)
    (hcand : smartCands queue byId o randA ≠ []) :
    (∀ p q : Player, roleMixScore p q = if p.role = q.role then 2 else 6)
    ∧ (∀ p q : Player, ¬(p.role = Role.DPS ∧ q.role = Role.DPS) → dpsVarietyScore p q = 0)
    ∧ (∀ p q : Player, p.role = Role.DPS → q.role = Role.DPS →
        ∀ ta tb, p.dpsType = some ta → q.dpsType = some tb →
          dpsVarietyScore p q = if ta = tb then 1 else 3)
    ∧ (∀ p q : Player, ¬(p.role = Role.DPS ∧ q.role = Role.DPS) → weaponVarietyScore p q = 0)
    ∧ (∀ p q : Player, p.role = Role.DPS → q.role = Role.DPS →
        weaponVarietyScore p q =
          (if 3 ≤ (((weaponSet p) \ (weaponSet q)) ∪ ((weaponSet q) \ (weaponSet p))).card
           then 3
           else if (((weaponSet p) \ (weaponSet q)) ∪ ((weaponSet q) \ (weaponSet p))).card = 2
           then 2
           else if (((weaponSet p) \ (weaponSet q)) ∪ ((weaponSet q) \ (weaponSet p))).card = 1
           then 1 else 0))
    ∧ (∀ (p q : Player) (r : ℚ),
        smartScore o.avoidRecent o.recentOppCount now p q r
          = 14 * (roleMixScore p q : ℚ) + 8 * (dpsVarietyScore p q : ℚ)
            + 6 * (weaponVarietyScore p q : ℚ) + 6 * r
            - (if o.avoidRecent && (p.lastOpponents.take o.recentOppCount).contains q.id
               then (35 : ℚ) else 0)
            - ((if recentlyActive p now then (4 : ℚ) else 0)
               + (if recentlyActive q now then (4 : ℚ) else 0)))
    ∧ (∃ j, j < (smartCands queue byId o randA).length
        ∧ pickMatchFromQueue queue byId o randA randB randS now
          = some { aId := (sideA (activeQueue queue byId) o randA).id,
                   bId := ((smartCands queue byId o randA).getD j dummyPlayer).id,
                   createdAt := now }
        ∧ (∀ k, k < (smartCands queue byId o randA).length →
            candScore queue byId o randA randS now k ≤ candScore queue byId o randA randS now j)
        ∧ (∀ k, k < j →
            candScore queue byId o randA randS now k
              < candScore queue byId o randA randS now j)) := by
  refine ⟨?_, ?_, ?_, ?_, ?_, ?_, ?_⟩
  · intro p q
    unfold roleMixScore
    by_cases h : p.role = q.role <;> simp [h]
  · intro p q h
    rcases not_and_or.mp h with h1 | h1 <;> simp [dpsVarietyScore, h1]
  · intro p q hp hq ta tb hta htb
    unfold dpsVarietyScore
    rw [hta, htb]
    by_cases h : ta = tb <;> simp [hp, hq, h]
  · intro p q h
    rcases not_and_or.mp h with h1 | h1 <;> simp [weaponVarietyScore, h1]
  · intro p q hp hq
    unfold weaponVarietyScore
    have hd : (((weaponSet p) \ (weaponSet q)) ∪ ((weaponSet q) \ (weaponSet p))).card
        = ((weaponSet p) \ (weaponSet q)).card + ((weaponSet q) \ (weaponSet p)).card :=
      Finset.card_union_of_disjoint disjoint_sdiff_sdiff
    rw [hd]
    simp [hp, hq]
  · intro p q r
    unfold smartScore recentPenaltyScore recencyPenalty recentlyPlayed
    push_cast
    split_ifs <;> ring
  · obtain ⟨j, hj, hbest, hmax, htie⟩ :=
      smartBest_argmax queue byId o randA randS now (fun i => (hrS i).1) hcand
    refine ⟨j, hj, ?_, hmax, htie⟩
    rw [pick_smart_eq queue byId o randA randB randS now hmode (not_lt.mpr hlen)
      (fun h => hcand (List.length_eq_zero.mp h))]
    rw [hbest]

def exTank : Player := { dummyPlayer with id := "t", role := Role.TANK }

def exD1 : Player :=
  { dummyPlayer with
    id := "d1", role := Role.DPS, dpsType := some DpsType.MELEE,
    weapon1 := "Espada estrategica", weapon2 := "Duales" }

def exD2 : Player :=
  { dummyPlayer with
    id := "d2", role := Role.DPS, dpsType := some DpsType.RANGED,
    weapon1 := "Sombrilla", weapon2 := "Abanico" }

/-- C1 witness: a concrete three-player SMART selection. -/
theorem c1_smart_scoring_and_selection_witness :
    (exOpts.mode = Mode.SMART
      ∧ 2 ≤ (activeQueue ["t", "d1", "d2"] (buildPlayersById [exTank, exD1, exD2])).length
      ∧ smartCands ["t", "d1", "d2"] (buildPlayersById [exTank, exD1, exD2]) exOpts (1/2) ≠ [])
    ∧ (∃ j, j < (smartCands ["t", "d1", "d2"] (buildPlayersById [exTank, exD1, exD2]) exOpts
          (1/2)).length
        ∧ pickMatchFromQueue ["t", "d1", "d2"] (buildPlayersById [exTank, exD1, exD2]) exOpts
            (1/2) (1/2) (fun _ => 1/2) 7
          = some { aId := (sideA (activeQueue ["t", "d1", "d2"]
                    (buildPlayersById [exTank, exD1, exD2])) exOpts (1/2)).id,
                   bId := ((smartCands ["t", "d1", "d2"] (buildPlayersById [exTank, exD1, exD2])
                    exOpts (1/2)).getD j dummyPlayer).id,
                   createdAt := 7 }
        ∧ (∀ k, k < (smartCands ["t", "d1", "d2"] (buildPlayersById [exTank, exD1, exD2]) exOpts
            (1/2)).length →
            candScore ["t", "d1", "d2"] (buildPlayersById [exTank, exD1, exD2]) exOpts (1/2)
              (fun _ => 1/2) 7 k
              ≤ candScore ["t", "d1", "d2"] (buildPlayersById [exTank, exD1, exD2]) exOpts (1/2)
                (fun _ => 1/2) 7 j)
        ∧ (∀ k, k < j →
            candScore ["t", "d1", "d2"] (buildPlayersById [exTank, exD1, exD2]) exOpts (1/2)
              (fun _ => 1/2) 7 k
              < candScore ["t", "d1", "d2"] (buildPlayersById [exTank, exD1, exD2]) exOpts (1/2)
                (fun _ => 1/2) 7 j)) := by
  refine ⟨⟨rfl, by decide, by decide⟩, ?_⟩
  exact (c1_smart_scoring_and_selection ["t", "d1", "d2"]
    (buildPlayersById [exTank, exD1, exD2]) exOpts (1/2) (1/2) (fun _ => 1/2) 7 rfl
    (fun i => ⟨by norm_num, by norm_num⟩) (by decide) (by decide)).2.2.2.2.2.2

def varietySub (a c : Player) : Nat :=
  roleMixScore a c * 14 + dpsVarietyScore a c * 8 + weaponVarietyScore a c * 6

lemma smartScore_recent_lt (cnt : Nat) (now : Int) (a ci co : Player) (r r2 : ℚ)
    (hr : r < 1) (hr2 : 0 ≤ r2)
    (hin : recentlyPlayed a ci.id cnt = true) (hout : recentlyPlayed a co.id cnt = false)
    (hV : varietySub a ci ≤ varietySub a co) :
    smartScore true cnt now a ci r < smartScore true cnt now a co r2 := by
  have hVq : ((varietySub a ci : ℚ)) ≤ (varietySub a co : ℚ) := by exact_mod_cast hV
  have e1 : ((varietySub a ci : ℚ))
      = (roleMixScore a ci : ℚ) * 14 + (dpsVarietyScore a ci : ℚ) * 8
        + (weaponVarietyScore a ci : ℚ) * 6 := by
    unfold varietySub
    push_cast
    ring
  have e2 : ((varietySub a co : ℚ))
      = (roleMixScore a co : ℚ) * 14 + (dpsVarietyScore a co : ℚ) * 8
        + (weaponVarietyScore a co : ℚ) * 6 := by
    unfold varietySub
    push_cast
    ring
  have hpi : recentPenaltyScore true cnt a ci = 35 := by
    unfold recentPenaltyScore
    simp [hin]
  have hpo : recentPenaltyScore true cnt a co = 0 := by
    unfold recentPenaltyScore
    simp [hout]
  have hri : (0 : ℚ) ≤ (recencyPenalty a ci now : ℚ) := Nat.cast_nonneg _
  have hro : ((recencyPenalty a co now : ℚ)) ≤ 8 := by exact_mod_cast recencyPenalty_le a co now
  unfold smartScore
  rw [hpi, hpo]
  push_cast
  linarith

lemma smartCands_subset_filterMap (queue : List String) (byId : String → Option Player)
    (o : PickOpts) (randA : ℚ) :
    ∀ p, p ∈ smartCands queue byId o randA → p ∈ queue.filterMap byId := by
  intro p hp
  unfold smartCands activeQueue at hp
  exact List.mem_of_mem_filter (List.mem_of_mem_filter hp)

lemma smartCands_id_inj (queue : List String) (byId : String → Option Player) (o : PickOpts)
    (randA : ℚ) (hById : ∀ s p, byId s = some p → p.id = s) :
    ∀ p, p ∈ smartCands queue byId o randA → ∀ q, q ∈ smartCands queue byId o randA →
      p.id = q.id → p = q := by
  intro p hp q hq hpq
  obtain ⟨s1, hs1, hbs1⟩ := List.mem_filterMap.mp (smartCands_subset_filterMap queue byId o randA p hp)
  obtain ⟨s2, hs2, hbs2⟩ := List.mem_filterMap.mp (smartCands_subset_filterMap queue byId o randA q hq)
  have e1 : p.id = s1 := hById s1 p hbs1
  have e2 : q.id = s2 := hById s2 q hbs2
  have hs : s1 = s2 := by rw [← e1, ← e2, hpq]
  rw [hs] at hbs1
  have := hbs1.symm.trans hbs2
  injection this

lemma pick_some_guards (queue : List String) (byId : String → Option Player) (o : PickOpts)
    (randA randB : ℚ) (randS : Nat → ℚ) (now : Int) (mt : Match)
    (h : pickMatchFromQueue queue byId o randA randB randS now = some mt) :
    ¬ (activeQueue queue byId).length < 2
      ∧ ¬ (smartCands queue byId o randA).length = 0 := by
  by_cases h1 : (activeQueue queue byId).length < 2
  · rw [pick_none_of_lt_two queue byId o randA randB randS now h1] at h
    cases h
  · refine ⟨h1, ?_⟩
    intro h2
    unfold pickMatchFromQueue at h
    simp [h1, h2] at h

/-- C4: under the SMART policy with anti-repeat enabled, for every outcome of
the per-candidate random draws, a candidate inside side A's recent-opponent
lookback window is never selected as side B whenever some candidate outside the
window has a role/dps/weapon variety subscore at least as large, because the
35-point recent penalty dominates the at-most-6-point random spread plus the
at-most-8-point recency-penalty difference. -/
theorem c4_recent_penalty_dominates (queue : List String) (byId : String → Option Player)
    (o : PickOpts) (randA randB : ℚ) (randS : Nat → ℚ) (now : Int)
    (hById : ∀ s p, byId s = some p → p.id = s)
    (hmode : o.mode = Mode.SMART) (hav : o.avoidRecent = true)
    (hrS : ∀ i, 0 ≤ randS i ∧ randS i < 1)
    (ci co : Player)
    (hci : ci ∈ smartCands queue byId o randA)
    (hco : co ∈ smartCands queue byId o randA)
    (hin : recentlyPlayed (sideA (activeQueue queue byId) o randA) ci.id o.recentOppCount = true)
    (hout : recentlyPlayed (sideA (activeQueue queue byId) o randA) co.id o.recentOppCount
      = false)
    (hV : varietySub (sideA (activeQueue queue byId) o randA) ci
        ≤ varietySub (sideA (activeQueue queue byId) o randA) co) :
    ∀ mt, pickMatchFromQueue queue byId o randA randB randS now = some mt → mt.bId ≠ ci.id := by
  intro mt hmt
  obtain ⟨hlen, hcand0⟩ := pick_some_guards queue byId o randA randB randS now mt hmt
  have hcand : smartCands queue byId o randA ≠ [] :=
    fun hnil => hcand0 (by rw [hnil]; rfl)
  obtain ⟨j, hj, hbest, hmax, _⟩ :=
    smartBest_argmax queue byId o randA randS now (fun i => (hrS i).1) hcand
  rw [pick_smart_eq queue byId o randA randB randS now hmode hlen hcand0] at hmt
  injection hmt with hmt2
  intro hbid
  have hbid2 : ((smartCands queue byId o randA).getD j dummyPlayer).id = ci.id := by
    rw [← hmt2] at hbid
    simpa [hbest] using hbid
  have hjmem : (smartCands queue byId o randA).getD j dummyPlayer
      ∈ smartCands queue byId o randA := by
    rw [List.getD_eq_getElem _ _ hj]
    exact List.getElem_mem hj
  have hjeq : (smartCands queue byId o randA).getD j dummyPlayer = ci :=
    smartCands_id_inj queue byId o randA hById _ hjmem ci hci hbid2
  obtain ⟨jo, hjo, hjoeq⟩ := List.mem_iff_getElem.mp hco
  have hjoD : (smartCands queue byId o randA).getD jo dummyPlayer = co := by
    rw [List.getD_eq_getElem _ _ hjo]
    exact hjoeq
  have hle := hmax jo hjo
  have hlt : candScore queue byId o randA randS now j
      < candScore queue byId o randA randS now jo := by
    unfold candScore
    rw [hjeq, hjoD]
    rw [hav]
    exact smartScore_recent_lt o.recentOppCount now (sideA (activeQueue queue byId) o randA)
      ci co (randS j) (randS jo) (hrS j).2 (hrS jo).1 hin hout hV
  linarith

/-- C4 witness: a recent opponent loses to a fresh candidate of equal variety. -/
theorem c4_recent_penalty_dominates_witness :
    (exOpts.mode = Mode.SMART ∧ exOpts.avoidRecent = true
      ∧ recentlyPlayed (sideA (activeQueue ["t", "d1", "d2"]
          (buildPlayersById [{ exTank with lastOpponents := ["d1"] }, exD1, exD2])) exOpts (1/2))
          "d1" exOpts.recentOppCount = true)
    ∧ (∀ mt, pickMatchFromQueue ["t", "d1", "d2"]
        (buildPlayersById [{ exTank with lastOpponents := ["d1"] }, exD1, exD2]) exOpts
        (1/2) (1/2) (fun _ => 1/2) 7 = some mt → mt.bId ≠ exD1.id) := by
  refine ⟨⟨rfl, rfl, by decide⟩, ?_⟩
  exact c4_recent_penalty_dominates ["t", "d1", "d2"]
    (buildPlayersById [{ exTank with lastOpponents := ["d1"] }, exD1, exD2]) exOpts
    (1/2) (1/2) (fun _ => 1/2) 7
    (fun s p h => by
      have := List.find?_some h
      simpa using this)
    rfl rfl (fun i => ⟨by norm_num, by norm_num⟩) exD1 exD2
    (by decide) (by decide) (by decide) (by decide) (by decide)

lemma jsFloorIdx_lt (r : ℚ) (n : Nat) (h0 : 0 ≤ r) (h1 : r < 1) (hn : 0 < n) :
    jsFloorIdx r n < n := by
  unfold jsFloorIdx
  have hnq : (0 : ℚ) < (n : ℚ) := by exact_mod_cast hn
  have hrn : r * (n : ℚ) < (n : ℚ) := by nlinarith
  have hfl : ⌊r * (n : ℚ)⌋ < (n : ℤ) := by
    apply Int.floor_lt.mpr
    push_cast
    exact hrn
  have h0f : (0 : ℤ) ≤ ⌊r * (n : ℚ)⌋ := Int.floor_nonneg.mpr (mul_nonneg h0 (le_of_lt hnq))
  omega

lemma rndFinalPool_ne_nil (queue : List String) (byId : String → Option Player) (o : PickOpts)
    (randA : ℚ) (hcand : smartCands queue byId o randA ≠ []) :
    rndFinalPool queue byId o randA ≠ [] := by
  simp only [rndFinalPool]
  split
  · split
    · next h2 =>
      intro hnil
      rw [hnil] at h2
      simp at h2
    · exact hcand
  · rw [ite_self]
    exact hcand

/-- C5: under the RANDOM policy side B is drawn by a uniform index from the
final pool, which is the candidate pool of all active queued players except A
when anti-repeat is off or no candidate survives the recent-opponent filter,
and otherwise the sub-pool of candidates outside side A's lookback window; in
particular a singleton final pool is selected deterministically for every value
of the random draw. -/
theorem c5_random_pool_selection (queue : List String) (byId : String → Option Player)
    (o : PickOpts) (randA randB : ℚ) (randS : Nat → ℚ) (now : Int)
    (hmode : o.mode = Mode.RANDOM)
    (hB0 : 0 ≤ randB) (hB1 : randB < 1)
    (hlen : 2 ≤ (activeQueue queue byId).length)
    (hcand : smartCands queue byId o randA ≠ []) :
    jsFloorIdx randB (rndFinalPool queue byId o randA).length
      < (rndFinalPool queue byId o randA).length
    ∧ pickMatchFromQueue queue byId o randA randB randS now
      = some { aId := (sideA (activeQueue queue byId) o randA).id,
               bId := ((rndFinalPool queue byId o randA).getD
                 (jsFloorIdx randB (rndFinalPool queue byId o randA).length) dummyPlayer).id,
               createdAt := now }
    ∧ (o.avoidRecent = true →
        (smartCands queue byId o randA).filter
            (fun c => !(recentlyPlayed (sideA (activeQueue queue byId) o randA) c.id
              o.recentOppCount)) ≠ [] →
        rndFinalPool queue byId o randA
          = (smartCands queue byId o randA).filter
              (fun c => !(recentlyPlayed (sideA (activeQueue queue byId) o randA) c.id
                o.recentOppCount)))
    ∧ (o.avoidRecent = true →
        (smartCands queue byId o randA).filter
            (fun c => !(recentlyPlayed (sideA (activeQueue queue byId) o randA) c.id
              o.recentOppCount)) = [] →
        rndFinalPool queue byId o randA = smartCands queue byId o randA)
    ∧ (o.avoidRecent = false → rndFinalPool queue byId o randA = smartCands queue byId o randA)
    ∧ (∀ b0, rndFinalPool queue byId o randA = [b0] →
        pickMatchFromQueue queue byId o randA randB randS now
          = some { aId := (sideA (activeQueue queue byId) o randA).id, bId := b0.id,
                   createdAt := now }) := by
  have hcand0 : ¬ (smartCands queue byId o randA).length = 0 :=
    fun h => hcand (List.length_eq_zero.mp h)
  have hpos : 0 < (rndFinalPool queue byId o randA).length :=
    List.length_pos.mpr (rndFinalPool_ne_nil queue byId o randA hcand)
  have hidx := jsFloorIdx_lt randB (rndFinalPool queue byId o randA).length hB0 hB1 hpos
  have hpick := pick_random_eq queue byId o randA randB randS now hmode (not_lt.mpr hlen) hcand0
  refine ⟨hidx, hpick, ?_, ?_, ?_, ?_⟩
  · intro hav hne
    simp only [rndFinalPool, hav, if_true]
    rw [if_pos]
    simpa using hne
  · intro hav hz
    simp only [rndFinalPool, hav, if_true]
    rw [if_neg]
    simp [hz]
  · intro hav
    simp [rndFinalPool, hav]
  · intro b0 hb
    rw [hpick, hb]
    have h1 : jsFloorIdx randB ([b0] : List Player).length = 0 :=
      Nat.lt_one_iff.mp (jsFloorIdx_lt randB 1 hB0 hB1 one_pos)
    rw [h1]
    rfl

def exA5 : Player := { dummyPlayer with
  id := "a", lastOpponents := ["c"] }

def exB5 : Player := { dummyPlayer with
  id := "b" }

def exC5 : Player := { dummyPlayer with
  id := "c" }

def exOptsR : PickOpts :=
  { mode := Mode.RANDOM, randomA := false, randomATopN := 6, avoidRecent := true,
    recentOppCount := 1 }

/-- C5 witness: recent opponents `[c]` with lookback 1 and candidates `{b, c}`
force side B to be `b` under RANDOM with anti-repeat on. -/
theorem c5_random_pool_selection_witness :
    (exOptsR.mode = Mode.RANDOM ∧ 0 ≤ (1 / 3 : ℚ) ∧ (1 / 3 : ℚ) < 1
      ∧ 2 ≤ (activeQueue ["a", "b", "c"] (buildPlayersById [exA5, exB5, exC5])).length
      ∧ rndFinalPool ["a", "b", "c"] (buildPlayersById [exA5, exB5, exC5]) exOptsR (1/2) = [exB5])
    ∧ pickMatchFromQueue ["a", "b", "c"] (buildPlayersById [exA5, exB5, exC5]) exOptsR
        (1/2) (1/3) (fun _ => 1/2) 9
      = some { aId := (sideA (activeQueue ["a", "b", "c"]
                (buildPlayersById [exA5, exB5, exC5])) exOptsR (1/2)).id,
               bId := exB5.id, createdAt := 9 } := by
  refine ⟨⟨rfl, by norm_num, by norm_num, by decide, by decide⟩, ?_⟩
  exact (c5_random_pool_selection ["a", "b", "c"] (buildPlayersById [exA5, exB5, exC5]) exOptsR
    (1/2) (1/3) (fun _ => 1/2) 9 rfl (by norm_num) (by norm_num) (by decide)
    (by decide)).2.2.2.2.2 exB5 (by decide)

lemma buildPlayersById_id (ps : List Player) :
    ∀ s p, buildPlayersById ps s = some p → p.id = s := by
  intro s p h
  have := List.find?_some h
  simpa using this

lemma activeQueue_id_mem_queue (queue : List String) (byId : String → Option Player)
    (hById : ∀ s p, byId s = some p → p.id = s) :
    ∀ p, p ∈ activeQueue queue byId → p.id ∈ queue := by
  intro p hp
  unfold activeQueue at hp
  obtain ⟨s, hs, hbs⟩ := List.mem_filterMap.mp (List.mem_of_mem_filter hp)
  rw [hById s p hbs]
  exact hs

lemma sideA_mem (aq : List Player) (o : PickOpts) (randA : ℚ)
    (hA0 : 0 ≤ randA) (hA1 : randA < 1) (hlen : 2 ≤ aq.length) :
    sideA aq o randA ∈ aq := by
  unfold sideA
  split
  · have htop : 0 < max 2 (min aq.length o.randomATopN) := by omega
    have hlt := jsFloorIdx_lt randA (max 2 (min aq.length o.randomATopN)) hA0 hA1 htop
    have hle : max 2 (min aq.length o.randomATopN) ≤ aq.length := by omega
    have hlt2 : jsFloorIdx randA (max 2 (min aq.length o.randomATopN)) < aq.length := by omega
    rw [List.getD_eq_getElem _ _ hlt2]
    exact List.getElem_mem hlt2
  · have h0 : 0 < aq.length := by omega
    rw [List.getD_eq_getElem _ _ h0]
    exact List.getElem_mem h0

lemma smartLoop_fst_mem (av : Bool) (cnt : Nat) (now : Int) (a : Player) (randS : Nat → ℚ) :
    ∀ (l : List Player) (i : Nat) (best : Player) (bs : ℚ),
      (smartLoop av cnt now a randS l i best bs).1 = best
        ∨ (smartLoop av cnt now a randS l i best bs).1 ∈ l := by
  intro l
  induction l with
  | nil => intro i best bs; left; rfl
  | cons c rest ih =>
    intro i best bs
    by_cases h : bs < smartScore av cnt now a c (randS i)
    · rw [smartLoop_cons_pos av cnt now a randS c rest i best bs h]
      rcases ih (i + 1) c (smartScore av cnt now a c (randS i)) with h1 | h1
      · right; rw [h1]; exact List.mem_cons_self c rest
      · right; exact List.mem_cons_of_mem c h1
    · rw [smartLoop_cons_neg av cnt now a randS c rest i best bs h]
      rcases ih (i + 1) best bs with h1 | h1
      · left; exact h1
      · right; exact List.mem_cons_of_mem c h1

lemma smartBest_mem (queue : List String) (byId : String → Option Player) (o : PickOpts)
    (randA : ℚ) (randS : Nat → ℚ) (now : Int)
    (hcand : smartCands queue byId o randA ≠ []) :
    smartBest queue byId o randA randS now ∈ smartCands queue byId o randA := by
  have hpos : 0 < (smartCands queue byId o randA).length := List.length_pos.mpr hcand
  unfold smartBest
  rcases smartLoop_fst_mem o.avoidRecent o.recentOppCount now
    (sideA (activeQueue queue byId) o randA) randS (smartCands queue byId o randA) 0
    ((smartCands queue byId o randA).getD 0 dummyPlayer) (-999999) with h | h
  · rw [h, List.getD_eq_getElem _ _ hpos]
    exact List.getElem_mem hpos
  · exact h

lemma rndFinalPool_subset (queue : List String) (byId : String → Option Player) (o : PickOpts)
    (randA : ℚ) :
    ∀ p, p ∈ rndFinalPool queue byId o randA → p ∈ smartCands queue byId o randA := by
  intro p hp
  simp only [rndFinalPool] at hp
  by_cases hav : o.avoidRecent = true
  · rw [hav] at hp
    simp only [if_true] at hp
    by_cases hz : ((smartCands queue byId o randA).filter
        (fun c => !(recentlyPlayed (sideA (activeQueue queue byId) o randA) c.id
          o.recentOppCount))).length != 0
    · rw [if_pos hz] at hp
      exact List.mem_of_mem_filter hp
    · rw [if_neg hz] at hp
      exact hp
  · have hav2 : o.avoidRecent = false := by
      cases h : o.avoidRecent
      · rfl
      · exact absurd h hav
    rw [hav2] at hp
    simp only [Bool.false_eq_true, if_false, ite_self] at hp
    exact hp

lemma smartCands_subset_activeQueue (queue : List String) (byId : String → Option Player)
    (o : PickOpts) (randA : ℚ) :
    ∀ p, p ∈ smartCands queue byId o randA → p ∈ activeQueue queue byId := by
  intro p hp
  unfold smartCands at hp
  exact List.mem_of_mem_filter hp

lemma pick_ids_mem (queue : List String) (byId : String → Option Player) (o : PickOpts)
    (randA randB : ℚ) (randS : Nat → ℚ) (now : Int) (mt : Match)
    (hById : ∀ s p, byId s = some p → p.id = s)
    (hA0 : 0 ≤ randA) (hA1 : randA < 1) (hB0 : 0 ≤ randB) (hB1 : randB < 1)
    (h : pickMatchFromQueue queue byId o randA randB randS now = some mt) :
    mt.aId ∈ queue ∧ mt.bId ∈ queue := by
  obtain ⟨hlen, hcand0⟩ := pick_some_guards queue byId o randA randB randS now mt h
  have hlen2 : 2 ≤ (activeQueue queue byId).length := not_lt.mp hlen
  have hcand : smartCands queue byId o randA ≠ [] :=
    fun hnil => hcand0 (by rw [hnil]; rfl)
  have haQ : (sideA (activeQueue queue byId) o randA).id ∈ queue :=
    activeQueue_id_mem_queue queue byId hById _
      (sideA_mem (activeQueue queue byId) o randA hA0 hA1 hlen2)
  cases hmode : o.mode with
  | RANDOM =>
    rw [pick_random_eq queue byId o randA randB randS now hmode hlen hcand0] at h
    injection h with h2
    have hpos : 0 < (rndFinalPool queue byId o randA).length :=
      List.length_pos.mpr (rndFinalPool_ne_nil queue byId o randA hcand)
    have hidx := jsFloorIdx_lt randB (rndFinalPool queue byId o randA).length hB0 hB1 hpos
    have hbmem : (rndFinalPool queue byId o randA).getD
        (jsFloorIdx randB (rndFinalPool queue byId o randA).length) dummyPlayer
        ∈ rndFinalPool queue byId o randA := by
      rw [List.getD_eq_getElem _ _ hidx]
      exact List.getElem_mem hidx
    have hbQ : ((rndFinalPool queue byId o randA).getD
        (jsFloorIdx randB (rndFinalPool queue byId o randA).length) dummyPlayer).id ∈ queue :=
      activeQueue_id_mem_queue queue byId hById _
        (smartCands_subset_activeQueue queue byId o randA _
          (rndFinalPool_subset queue byId o randA _ hbmem))
    rw [← h2]
    exact ⟨haQ, hbQ⟩
  | SMART =>
    rw [pick_smart_eq queue byId o randA randB randS now hmode hlen hcand0] at h
    injection h with h2
    have hbQ : (smartBest queue byId o randA randS now).id ∈ queue :=
      activeQueue_id_mem_queue queue byId hById _
        (smartCands_subset_activeQueue queue byId o randA _
          (smartBest_mem queue byId o randA randS now hcand))
    rw [← h2]
    exact ⟨haQ, hbQ⟩

/-- C8: a newly drawn match never involves a participant of any currently
in-flight, not-yet-resolved screen match: both selected ids differ from both
sides of every unresolved screen match present when the draw happens. -/
theorem c8_busy_players_excluded (st : St) (o : PickOpts) (randA randB : ℚ) (randS : Nat → ℚ)
    (now : Int) (hA0 : 0 ≤ randA) (hA1 : randA < 1) (hB0 : 0 ≤ randB) (hB1 : randB < 1) :
    ∀ m, (nextMatch st o randA randB randS now).currentMatch = some m →
      ∀ sm ∈ st.screenMatches, matchResolved st.results sm.createdAt = false →
        m.aId ≠ sm.aId ∧ m.aId ≠ sm.bId ∧ m.bId ≠ sm.aId ∧ m.bId ≠ sm.bId := by
  intro m hm sm hsm hres
  unfold nextMatch at hm
  cases hp : pickMatchFromQueue (availableQueue st) (buildPlayersById st.players) o
      randA randB randS now with
  | none => rw [hp] at hm; simp at hm
  | some m0 =>
    rw [hp] at hm
    simp at hm
    subst hm
    obtain ⟨haQ, hbQ⟩ := pick_ids_mem (availableQueue st) (buildPlayersById st.players) o randA
      randB randS now m0 (buildPlayersById_id st.players) hA0 hA1 hB0 hB1 hp
    have haNB : isBusy st m0.aId = false := by
      have h1 := List.of_mem_filter haQ
      simpa using h1
    have hbNB : isBusy st m0.bId = false := by
      have h1 := List.of_mem_filter hbQ
      simpa using h1
    unfold isBusy at haNB hbNB
    rw [List.any_eq_false] at haNB hbNB
    have h1 := haNB sm hsm
    have h2 := hbNB sm hsm
    rw [hres] at h1 h2
    simp at h1 h2
    exact ⟨fun he => h1.1 he.symm, fun he => h1.2 he.symm,
      fun he => h2.1 he.symm, fun he => h2.2 he.symm⟩

def c8ExSt : St :=
  { players := [{ dummyPlayer with id := "a" }, { dummyPlayer with id := "b" },
      { dummyPlayer with id := "c" }, { dummyPlayer with id := "d" }],
    results := [], queue := ["a", "b", "c", "d"],
    screenMatches := [{ aId := "a", bId := "b", createdAt := 1 }],
    currentMatch := some { aId := "a", bId := "b", createdAt := 1 } }

/-- C8 witness: with `a` and `b` busy in an unresolved screen match, a fresh
draw avoids both of them. -/
theorem c8_busy_players_excluded_witness :
    ((0 : ℚ) ≤ 1/2 ∧ (1/2 : ℚ) < 1)
    ∧ (∀ m, (nextMatch c8ExSt exOpts (1/2) (1/2) (fun _ => 1/2) 9).currentMatch = some m →
        ∀ sm ∈ c8ExSt.screenMatches, matchResolved c8ExSt.results sm.createdAt = false →
          m.aId ≠ sm.aId ∧ m.aId ≠ sm.bId ∧ m.bId ≠ sm.aId ∧ m.bId ≠ sm.bId) := by
  refine ⟨⟨by norm_num, by norm_num⟩, ?_⟩
  exact c8_busy_players_excluded c8ExSt exOpts (1/2) (1/2) (fun _ => 1/2) 9
    (by norm_num) (by norm_num) (by norm_num) (by norm_num)

theorem pairFromStack_bye_spec (r : Nat) : ∀ (l : List String) (idx : Nat),
    ∃ ms, pairFromStack r true idx l = some ms
      ∧ ms.length = (l.length + 1) / 2
      ∧ ∀ m ∈ ms, m.canceled = false ∧ m.round = r
        ∧ ((m.b = "" ∧ m.winner = "A" ∧ m.a ∈ l)
          ∨ (m.winner = "" ∧ m.a ∈ l ∧ m.b ∈ l))
  | [], idx => by
    refine ⟨[], rfl, rfl, ?_⟩
    intro m hm
    cases hm
  | [x], idx => by
    refine ⟨[{ id := mkMatchId r idx, round := r, a := x, b := "", winner := "A", canceled := false }], ?_, by simp, ?_⟩
    · simp [pairFromStack]
    · intro m hm
      simp at hm
      subst hm
      exact ⟨rfl, rfl, Or.inl ⟨rfl, rfl, by simp⟩⟩
  | x :: y :: rest, idx => by
    obtain ⟨ms, hms, hlen, hprop⟩ := pairFromStack_bye_spec r rest (idx + 1)
    refine ⟨{ id := mkMatchId r idx, round := r, a := x, b := y, winner := "", canceled := false } :: ms, ?_, ?_, ?_⟩
    · simp [pairFromStack, hms]
    · simp only [List.length_cons, hlen]
      omega
    · intro m hm
      rcases List.mem_cons.mp hm with h | h
      · subst h
        exact ⟨rfl, rfl, Or.inr ⟨rfl, by simp, by simp⟩⟩
      · obtain ⟨hc, hrd, hcase⟩ := hprop m h
        refine ⟨hc, hrd, ?_⟩
        rcases hcase with ⟨h1, h2, h3⟩ | ⟨h1, h2, h3⟩
        · exact Or.inl ⟨h1, h2, by simp [h3]⟩
        · exact Or.inr ⟨h1, by simp [h2], by simp [h3]⟩

lemma winnersOfMatches_cons_some (m : BracketMatch) (L : List BracketMatch) (w : String)
    (hw : winnerOfMatch m = some w) (hne : w ≠ "") :
    winnersOfMatches (m :: L) = w :: winnersOfMatches L := by
  unfold winnersOfMatches
  simp only [List.filterMap_cons, hw]
  rw [List.filter_cons]
  simp [hne]

lemma winnersOfMatches_decide_length (d : BracketMatch → String) (ms : List BracketMatch)
    (hd : ∀ m, d m = "A" ∨ d m = "B")
    (hms : ∀ m ∈ ms, m.canceled = false
      ∧ ((m.b = "" ∧ m.winner = "A" ∧ m.a ≠ "") ∨ (m.winner = "" ∧ m.a ≠ "" ∧ m.b ≠ ""))) :
    (winnersOfMatches (decideMatches d ms)).length = ms.length := by
  induction ms with
  | nil => rfl
  | cons m rest ih =>
    obtain ⟨hc, hcase⟩ := hms m (List.mem_cons_self m rest)
    have hrest := ih (fun m2 hm2 => hms m2 (List.mem_cons_of_mem m hm2))
    rcases hcase with ⟨h1, h2, h3⟩ | ⟨h1, h2, h3⟩
    · have hdm : decideMatches d (m :: rest) = m :: decideMatches d rest := by
        simp [decideMatches, h1]
      have hw : winnerOfMatch m = some m.a := by
        simp [winnerOfMatch, hc, h2]
      rw [hdm, winnersOfMatches_cons_some m _ m.a hw h3]
      simp only [List.length_cons, hrest]
    · have hb : (m.b == "") = false := by simp [h3]
      have hdm : decideMatches d (m :: rest)
          = { m with winner := d m } :: decideMatches d rest := by
        unfold decideMatches
        rw [List.map_cons, if_neg (by simp [hb])]
      rcases hd m with hda | hdb
      · have hw : winnerOfMatch { m with winner := d m } = some m.a := by
          simp [winnerOfMatch, hc, hda]
        rw [hdm, winnersOfMatches_cons_some _ _ m.a hw h2]
        simp only [List.length_cons, hrest]
      · have hw : winnerOfMatch { m with winner := d m } = some m.b := by
          simp [winnerOfMatch, hc, hdb]
        rw [hdm, winnersOfMatches_cons_some _ _ m.b hw h3]
        simp only [List.length_cons, hrest]

lemma winnersOfMatches_mem (ms : List BracketMatch) :
    ∀ x ∈ winnersOfMatches ms, ∃ m ∈ ms, x = m.a ∨ x = m.b := by
  intro x hx
  unfold winnersOfMatches at hx
  obtain ⟨m, hm, hw⟩ := List.mem_filterMap.mp (List.mem_of_mem_filter hx)
  refine ⟨m, hm, ?_⟩
  unfold winnerOfMatch at hw
  by_cases hc : m.canceled = true
  · simp [hc] at hw
  · simp only [hc] at hw
    by_cases ha : (m.winner == "A") = true
    · simp only [ha, if_true, if_false, Bool.false_eq_true] at hw
      injection hw with hw2
      exact Or.inl hw2.symm
    · by_cases hb : (m.winner == "B") = true
      · simp only [ha, hb, if_true, if_false, Bool.false_eq_true] at hw
        injection hw with hw2
        exact Or.inr hw2.symm
      · simp [ha, hb] at hw

lemma decideMatches_mem (d : BracketMatch → String) (ms : List BracketMatch) :
    ∀ m2 ∈ decideMatches d ms, ∃ m ∈ ms, m2.a = m.a ∧ m2.b = m.b := by
  intro m2 hm2
  unfold decideMatches at hm2
  obtain ⟨m, hm, he⟩ := List.mem_map.mp hm2
  refine ⟨m, hm, ?_⟩
  by_cases hb : (m.b == "") = true
  · rw [if_pos hb] at he
    rw [← he]
    exact ⟨rfl, rfl⟩
  · rw [if_neg hb] at he
    rw [← he]
    exact ⟨rfl, rfl⟩

def halfUp (m : Nat) : Nat := (m + 1) / 2

lemma iterHalf_clog : ∀ n, 2 ≤ n →
    halfUp^[Nat.clog 2 n] n = 1 ∧ ∀ k, k < Nat.clog 2 n → 1 < halfUp^[k] n := by
  intro n
  induction n using Nat.strong_induction_on with
  | _ n ih =>
    intro hn
    have e21 : n + 2 - 1 = n + 1 := by omega
    have hrec : Nat.clog 2 n = Nat.clog 2 ((n + 1) / 2) + 1 := by
      rw [Nat.clog_of_two_le (by norm_num) hn, e21]
    by_cases h2 : n = 2
    · subst h2
      have hc : Nat.clog 2 2 = 1 := Nat.clog_eq_one (by norm_num) (by norm_num)
      constructor
      · rw [hc, Function.iterate_one]
        decide
      · intro k hk
        rw [hc] at hk
        have hk0 : k = 0 := by omega
        subst hk0
        simp
    · have h3 : 3 ≤ n := by omega
      have hm2 : 2 ≤ (n + 1) / 2 := by omega
      have hmlt : (n + 1) / 2 < n := by omega
      obtain ⟨ih1, ih2⟩ := ih ((n + 1) / 2) hmlt hm2
      have hfn : halfUp n = (n + 1) / 2 := rfl
      constructor
      · rw [hrec, Function.iterate_succ_apply, hfn]
        exact ih1
      · intro k hk
        cases k with
        | zero =>
          simp only [Function.iterate_zero_apply]
          omega
        | succ k2 =>
          rw [Function.iterate_succ_apply, hfn]
          rw [hrec] at hk
          exact ih2 k2 (by omega)

lemma poolSeq_facts (ds : Nat → BracketMatch → String)
    (shuffles : Nat → List String → List String) (participants : List String)
    (hd : ∀ k m, ds k m = "A" ∨ ds k m = "B")
    (hσ : ∀ k l, List.Perm (shuffles k l) l)
    (hnz : "" ∉ participants) :
    ∀ k, (poolSeq ds shuffles participants k).length = halfUp^[k] participants.length
      ∧ ∀ x ∈ poolSeq ds shuffles participants k, x ∈ participants := by
  intro k
  induction k with
  | zero =>
    constructor
    · simp [poolSeq]
    · intro x hx
      exact hx
  | succ k ih =>
    obtain ⟨ihlen, ihmem⟩ := ih
    have hperm : List.Perm (shuffles k (poolSeq ds shuffles participants k))
        (poolSeq ds shuffles participants k) := hσ k _
    have hpoolmem : ∀ x ∈ shuffles k (poolSeq ds shuffles participants k), x ∈ participants :=
      fun x hx => ihmem x (hperm.mem_iff.mp hx)
    have hpoollen : (shuffles k (poolSeq ds shuffles participants k)).length
        = (poolSeq ds shuffles participants k).length := hperm.length_eq
    obtain ⟨ms, hms, hmslen, hprop⟩ := pairFromStack_bye_spec (k + 1)
      (shuffles k (poolSeq ds shuffles participants k)).reverse 0
    have hround : roundMatchesBye (k + 1) (shuffles k (poolSeq ds shuffles participants k))
        = ms := by
      unfold roundMatchesBye
      rw [hms]
      rfl
    have hne : ∀ y, y ∈ (shuffles k (poolSeq ds shuffles participants k)).reverse → y ≠ "" := by
      intro y hy he
      apply hnz
      have := hpoolmem y (List.mem_reverse.mp hy)
      rw [he] at this
      exact this
    have hprops2 : ∀ m ∈ ms, m.canceled = false
        ∧ ((m.b = "" ∧ m.winner = "A" ∧ m.a ≠ "")
          ∨ (m.winner = "" ∧ m.a ≠ "" ∧ m.b ≠ "")) := by
      intro m hm
      obtain ⟨hc, hrd, hcase⟩ := hprop m hm
      refine ⟨hc, ?_⟩
      rcases hcase with ⟨h1, h2, h3⟩ | ⟨h1, h2, h3⟩
      · exact Or.inl ⟨h1, h2, hne m.a h3⟩
      · exact Or.inr ⟨h1, hne m.a h2, hne m.b h3⟩
    have hwin : (winnersOfMatches (decideMatches (ds k) ms)).length = ms.length :=
      winnersOfMatches_decide_length (ds k) ms (hd k) hprops2
    have hstep : poolSeq ds shuffles participants (k + 1)
        = winnersOfMatches (decideMatches (ds k)
          (roundMatchesBye (k + 1) (shuffles k (poolSeq ds shuffles participants k)))) := rfl
    constructor
    · rw [hstep, hround, hwin, hmslen, List.length_reverse, hpoollen, ihlen,
        Function.iterate_succ_apply']
      rfl
    · intro x hx
      rw [hstep, hround] at hx
      have hxne : x ≠ "" := by
        have h1 := List.of_mem_filter (p := fun s => s != "") (by
          unfold winnersOfMatches at hx
          exact hx)
        simpa using h1
      obtain ⟨m2, hm2, hab⟩ := winnersOfMatches_mem _ x hx
      obtain ⟨m, hm, ha, hb⟩ := decideMatches_mem (ds k) ms m2 hm2
      obtain ⟨hc, hrd, hcase⟩ := hprop m hm
      rcases hab with hxa | hxb
      · have hmem : m.a ∈ (shuffles k (poolSeq ds shuffles participants k)).reverse := by
          rcases hcase with ⟨_, _, h3⟩ | ⟨_, h2, _⟩
          exacts [h3, h2]
        have : x ∈ (shuffles k (poolSeq ds shuffles participants k)).reverse := by
          rw [hxa, ha]
          exact hmem
        exact hpoolmem x (List.mem_reverse.mp this)
      · rcases hcase with ⟨h1, _, _⟩ | ⟨_, _, h3⟩
        · exfalso
          apply hxne
          rw [hxb, hb, h1]
        · have : x ∈ (shuffles k (poolSeq ds shuffles participants k)).reverse := by
            rw [hxb, hb]
            exact h3
          exact hpoolmem x (List.mem_reverse.mp this)

lemma generateRound1_bye (ids : List String) (shuffle : List String → List String)
    (h2 : 2 ≤ ids.length) :
    generateRound1 ids true shuffle = some (roundMatchesBye 1 (shuffle ids)) := by
  unfold generateRound1
  rw [if_neg (not_lt.mpr h2)]
  obtain ⟨ms, hms, _, _⟩ := pairFromStack_bye_spec 1 (shuffle ids).reverse 0
  unfold roundMatchesBye
  rw [hms]
  rfl

lemma buildNextRound_finished (bracket : List BracketMatch) (r : Nat) (allowBye : Bool)
    (shuffle : List String → List String)
    (hca : canAdvance bracket r = true)
    (h1 : (shuffle (winnersOfRound bracket r)).length ≤ 1) :
    buildNextRound bracket r allowBye shuffle = AdvanceOutcome.finished := by
  unfold buildNextRound
  rw [hca]
  simp [h1]

/-- C7: with byes enabled, a bracket started from any participant set of size
at least 2 (round generation pairs an arbitrarily shuffled pool sequentially,
giving an odd leftover an automatic bye-win), with every non-bye match of each
round decided with a winner and none canceled, reaches exactly one remaining
winner after exactly ceil(log2 n) = Nat.clog 2 n rounds: every earlier round
still has more than one pool member, and once at most one winner remains the
advance operation reports the finished terminal outcome rather than an error. -/
theorem c7_bracket_terminates (participants : List String)
    (ds : Nat → BracketMatch → String) (shuffles : Nat → List String → List String)
    (hn : 2 ≤ participants.length)
    (hd : ∀ k m, ds k m = "A" ∨ ds k m = "B")
    (hσ : ∀ k l, List.Perm (shuffles k l) l)
    (hnz : "" ∉ participants) :
    generateRound1 participants true (shuffles 0)
      = some (roundMatchesBye 1 (shuffles 0 participants))
    ∧ (poolSeq ds shuffles participants (Nat.clog 2 participants.length)).length = 1
    ∧ (∀ k, k < Nat.clog 2 participants.length →
        1 < (poolSeq ds shuffles participants k).length)
    ∧ (∀ bracket r shuffle, canAdvance bracket r = true →
        (shuffle (winnersOfRound bracket r)).length ≤ 1 →
        buildNextRound bracket r true shuffle = AdvanceOutcome.finished) := by
  obtain ⟨hiter1, hiter2⟩ := iterHalf_clog participants.length hn
  refine ⟨generateRound1_bye participants (shuffles 0) hn, ?_, ?_, ?_⟩
  · rw [(poolSeq_facts ds shuffles participants hd hσ hnz (Nat.clog 2 participants.length)).1]
    exact hiter1
  · intro k hk
    rw [(poolSeq_facts ds shuffles participants hd hσ hnz k).1]
    exact hiter2 k hk
  · intro bracket r shuffle hca h1
    exact buildNextRound_finished bracket r true shuffle hca h1

def c7Parts : List String := ["p1", "p2", "p3", "p4", "p5"]

/-- C7 witness: five participants with identity shuffles and side-A decisions. -/
theorem c7_bracket_terminates_witness :
    (2 ≤ c7Parts.length ∧ "" ∉ c7Parts)
    ∧ (poolSeq (fun _ _ => "A") (fun _ l => l) c7Parts (Nat.clog 2 c7Parts.length)).length = 1
    ∧ (∀ k, k < Nat.clog 2 c7Parts.length →
        1 < (poolSeq (fun _ _ => "A") (fun _ l => l) c7Parts k).length) := by
  refine ⟨⟨by decide, by decide⟩, ?_, ?_⟩
  · exact (c7_bracket_terminates c7Parts (fun _ _ => "A") (fun _ l => l) (by decide)
      (fun k m => Or.inl rfl) (fun k l => List.Perm.refl l) (by decide)).2.1
  · exact (c7_bracket_terminates c7Parts (fun _ _ => "A") (fun _ l => l) (by decide)
      (fun k m => Or.inl rfl) (fun k l => List.Perm.refl l) (by decide)).2.2.1
